import Mathlib

/-!
Formal model of the hyperagent streaming-llm backend core: the task graph
store (`backend/task_graph/store.py`), the event log (`backend/log/query.py`),
the rolling summarizer (`backend/log/summarize.py`), the agent runtime
(`backend/agents/runtime.py`) and the controller gate
(`backend/orchestrator/controller_runner.py`).

Python dicts are modelled as association lists with unique keys in insertion
order; JSON values as the inductive `Value`; uncaught Python exceptions as
`Except String`; wall-clock timestamps and generated uuids as explicit
`String` parameters threaded through each durable operation.
-/

set_option maxHeartbeats 1000000

/-- JSON-like values: the payloads stored in Python dicts in the backend. -/
inductive Value where
  | null
  | bool (b : Bool)
  | int (n : Int)
  | str (s : String)
  | list (xs : List Value)
  | dict (kvs : List (String × Value))
deriving Repr

mutual

def Value.decEq : (a b : Value) → Decidable (a = b)
  | .null, .null => .isTrue rfl
  | .null, .bool _ | .null, .int _ | .null, .str _ | .null, .list _ | .null, .dict _ =>
    .isFalse (fun h => Value.noConfusion h)
  | .bool _, .null | .bool _, .int _ | .bool _, .str _ | .bool _, .list _ | .bool _, .dict _ =>
    .isFalse (fun h => Value.noConfusion h)
  | .int _, .null | .int _, .bool _ | .int _, .str _ | .int _, .list _ | .int _, .dict _ =>
    .isFalse (fun h => Value.noConfusion h)
  | .str _, .null | .str _, .bool _ | .str _, .int _ | .str _, .list _ | .str _, .dict _ =>
    .isFalse (fun h => Value.noConfusion h)
  | .list _, .null | .list _, .bool _ | .list _, .int _ | .list _, .str _ | .list _, .dict _ =>
    .isFalse (fun h => Value.noConfusion h)
  | .dict _, .null | .dict _, .bool _ | .dict _, .int _ | .dict _, .str _ | .dict _, .list _ =>
    .isFalse (fun h => Value.noConfusion h)
  | .bool a, .bool b =>
    if h : a = b then .isTrue (by rw [h]) else
      .isFalse (fun hc => by injection hc with h1; exact h h1)
  | .int a, .int b =>
    if h : a = b then .isTrue (by rw [h]) else
      .isFalse (fun hc => by injection hc with h1; exact h h1)
  | .str a, .str b =>
    if h : a = b then .isTrue (by rw [h]) else
      .isFalse (fun hc => by injection hc with h1; exact h h1)
  | .list xs, .list ys =>
    match Value.decEqList xs ys with
    | .isTrue h => .isTrue (by rw [h])
    | .isFalse h => .isFalse (fun hc => by injection hc with h1; exact h h1)
  | .dict xs, .dict ys =>
    match Value.decEqPairs xs ys with
    | .isTrue h => .isTrue (by rw [h])
    | .isFalse h => .isFalse (fun hc => by injection hc with h1; exact h h1)

def Value.decEqList : (xs ys : List Value) → Decidable (xs = ys)
  | [], [] => .isTrue rfl
  | [], _ :: _ => .isFalse (fun h => List.noConfusion h)
  | _ :: _, [] => .isFalse (fun h => List.noConfusion h)
  | x :: xs, y :: ys =>
    match Value.decEq x y, Value.decEqList xs ys with
    | .isTrue h1, .isTrue h2 => .isTrue (by rw [h1, h2])
    | .isFalse h1, _ =>
      .isFalse (fun hc => by injection hc with hh ht; exact h1 hh)
    | _, .isFalse h2 =>
      .isFalse (fun hc => by injection hc with hh ht; exact h2 ht)

def Value.decEqPairs : (xs ys : List (String × Value)) → Decidable (xs = ys)
  | [], [] => .isTrue rfl
  | [], _ :: _ => .isFalse (fun h => List.noConfusion h)
  | _ :: _, [] => .isFalse (fun h => List.noConfusion h)
  | (k1, v1) :: xs, (k2, v2) :: ys =>
    if hk : k1 = k2 then
      match Value.decEq v1 v2, Value.decEqPairs xs ys with
      | .isTrue hv, .isTrue ht => .isTrue (by rw [hk, hv, ht])
      | .isFalse hv, _ =>
        .isFalse (fun hc => by
          injection hc with hp ht
          exact hv (congrArg Prod.snd hp))
      | _, .isFalse ht =>
        .isFalse (fun hc => by injection hc with hp ht2; exact ht ht2)
    else
      .isFalse (fun hc => by
        injection hc with hp ht
        exact hk (congrArg Prod.fst hp))

end

instance : DecidableEq Value := Value.decEq

/-- Python truthiness, as used by `if payload.get("render_to_user")`,
`if not conversation_id`, `if extra`, `a or b` and friends. -/
def Value.truthy : Value → Bool
  | .null => false
  | .bool b => b
  | .int n => n != 0
  | .str s => s != ""
  | .list xs => !xs.isEmpty
  | .dict kvs => !kvs.isEmpty

/-- Python `str(v)` for the scalar values the backend actually renders;
container reprs are outside the modelled domain. -/
def pyStrE : Value → Except String String
  | .str s => .ok s
  | .int n => .ok (toString n)
  | .bool true => .ok "True"
  | .bool false => .ok "False"
  | .null => .ok "None"
  | _ => .error "unmodelled: container repr"

/-- `d.get(key)` / `d[key]` lookup on a Python dict. -/
def dget : List (String × Value) → String → Option Value
  | [], _ => none
  | (k, v) :: rest, key => if k = key then some v else dget rest key

/-- `d[key] = val`: overwrite in place if the key exists (keeping its
insertion position), otherwise append at the end. -/
def dset : List (String × Value) → String → Value → List (String × Value)
  | [], key, val => [(key, val)]
  | (k, v) :: rest, key, val =>
    if k = key then (k, val) :: rest else (k, v) :: dset rest key val

/-- `d.pop(key, None)`: remove the key if present. -/
def dpop : List (String × Value) → String → List (String × Value)
  | [], _ => []
  | (k, v) :: rest, key => if k = key then rest else (k, v) :: dpop rest key

/-- `d.update(patch)`: apply each key of `patch` in order. -/
def dsetMany (d : List (String × Value)) (patch : List (String × Value)) :
    List (String × Value) :=
  patch.foldl (fun acc kv => dset acc kv.1 kv.2) d

theorem dget_dset_self (d : List (String × Value)) (k : String) (v : Value) :
    dget (dset d k v) k = some v := by
  induction d with
  | nil => simp [dset, dget]
  | cons kv rest ih =>
    obtain ⟨k', v'⟩ := kv
    by_cases h : k' = k
    · simp [dset, dget, h]
    · simp [dset, dget, h, ih]

theorem dget_dset_ne (d : List (String × Value)) (k k' : String) (v : Value)
    (h : k' ≠ k) : dget (dset d k v) k' = dget d k' := by
  induction d with
  | nil => simp [dset, dget, Ne.symm h]
  | cons kv rest ih =>
    obtain ⟨k0, v0⟩ := kv
    by_cases h0 : k0 = k
    · subst h0
      simp [dset, dget, Ne.symm h]
    · simp [dset, dget, h0, ih]

theorem dget_dsetMany_ne (patch : List (String × Value))
    (d : List (String × Value)) (k : String)
    (h : ∀ kv ∈ patch, kv.1 ≠ k) :
    dget (dsetMany d patch) k = dget d k := by
  induction patch generalizing d with
  | nil => simp [dsetMany]
  | cons kv rest ih =>
    have hkv : kv.1 ≠ k := h kv (List.mem_cons_self kv rest)
    have hrest : ∀ p ∈ rest, p.1 ≠ k := fun p hp => h p (List.mem_cons_of_mem kv hp)
    show dget (dsetMany (dset d kv.1 kv.2) rest) k = dget d k
    rw [ih (dset d kv.1 kv.2) hrest, dget_dset_ne d kv.1 k kv.2 (fun hc => hkv hc.symm)]

/-- A stored Python dict: one event-log entry or one task node. -/
abbrev Entry := List (String × Value)

/-- One task node of the registry (`tasks.graph.json` element). -/
abbrev Node := List (String × Value)

/-- The `tasks` list of the registry document, in storage order. -/
abbrev Graph := List Node

/-! ## Task graph store (`backend/task_graph/store.py`) -/

/-- `create_task`: `_now_iso()` is passed as `now`, the generated
`uuid4().hex` as `fid`.  Raises `KeyError` when the draft lacks `type` or
`status` (the Python dict literal indexes `task["type"]`/`task["status"]`). -/
def create_task (g : Graph) (draft : Node) (now fid : String) :
    Except String (Graph × Node) :=
  match dget draft "type", dget draft "status" with
  | some ty, some st =>
    let node : Node := [
      ("id", (dget draft "id").getD (.str ("task-" ++ fid))),
      ("type", ty),
      ("status", st),
      ("owner", (dget draft "owner").getD .null),
      ("inputs", (dget draft "inputs").getD (.dict [])),
      ("outputs", (dget draft "outputs").getD (.dict [])),
      ("context", (dget draft "context").getD (.dict [])),
      ("metadata", (dget draft "metadata").getD (.dict [])),
      ("priority", (dget draft "priority").getD (.int 0)),
      ("attempt", (dget draft "attempt").getD (.int 0)),
      ("created_at", (dget draft "created_at").getD (.str now)),
      ("updated_at", .str now),
      ("parent_id", (dget draft "parent_id").getD .null),
      ("dependency_ids", (dget draft "dependency_ids").getD (.list []))]
    .ok (g ++ [node], node)
  | _, _ => .error "KeyError: draft missing type or status"

/-- `update_task(task_id, **patch)`: patch the first node whose `id` equals
`tid`, refresh `updated_at`, return the updated node; `KeyError` when no
node matches.  A node without an `id` key makes Python raise `KeyError`
at `node["id"]`. -/
def update_task (g : Graph) (tid : Value) (patch : List (String × Value))
    (now : String) : Except String (Graph × Node) :=
  match g with
  | [] => .error "KeyError: task not found"
  | n :: rest =>
    match dget n "id" with
    | none => .error "KeyError: id"
    | some v =>
      if v = tid then
        .ok (dset (dsetMany n patch) "updated_at" (.str now) :: rest,
             dset (dsetMany n patch) "updated_at" (.str now))
      else
        match update_task rest tid patch now with
        | .error e => .error e
        | .ok (g', nd) => .ok (n :: g', nd)

/-- `list_active(statuses)`: all tasks in storage order, filtered by status
when the filter is non-empty. -/
def list_active (g : Graph) (statuses : List String) : Graph :=
  if statuses.isEmpty then g
  else g.filter (fun n =>
    match dget n "status" with
    | some (.str s) => statuses.contains s
    | _ => false)

/-! ## Event log (`backend/log/query.py`) -/

/-- The per-conversation journals: file stem (conversation id rendered with
`str()`) mapped to the parsed lines of `<stem>.jsonl`, in file order. -/
abbrev LogState := List (String × List Entry)

/-- Append one line to a journal, creating the journal if absent
(the `"a+"` open mode). -/
def logAppend (log : LogState) (key : String) (e : Entry) : LogState :=
  match log with
  | [] => [(key, [e])]
  | (k, es) :: rest =>
    if k = key then (k, es ++ [e]) :: rest else (k, es) :: logAppend rest key e

/-- Journal lookup; `none` models a missing `<key>.jsonl` file. -/
def logGet : LogState → String → Option (List Entry)
  | [], _ => none
  | (k, es) :: rest, key => if k = key then some es else logGet rest key

/-- The entry actually written by `append_event`: a copy of the draft with
`id` defaulted to `evt-<uuid>` (`setdefault`, appended at the end when
absent) and `timestamp` overwritten with `_now_iso()`. -/
def mkEntry (draft : Entry) (now fid : String) : Entry :=
  let e := if (dget draft "id").isSome then draft else draft ++ [("id", .str ("evt-" ++ fid))]
  dset e "timestamp" (.str now)

/-- `append_event(event)`: requires a truthy `conversation_id`
(`ValueError` otherwise), appends the finished entry to that conversation's
journal and returns the entry's `id`. -/
def append_event (draft : Entry) (now fid : String) (log : LogState) :
    Except String (Value × LogState) :=
  if ((dget draft "conversation_id").getD .null).truthy then
    match pyStrE ((dget draft "conversation_id").getD .null) with
    | .error e => .error e
    | .ok key =>
      .ok ((dget (mkEntry draft now fid) "id").getD .null,
           logAppend log key (mkEntry draft now fid))
  else .error "ValueError: conversation_id is required"

/-- `lines[-limit:]`: Python's negative-index slice; `limit = 0` yields the
whole list because `-0 == 0`. -/
def tailSlice (limit : Nat) (l : List Entry) : List Entry :=
  if limit = 0 then l else l.drop (l.length - limit)

/-- `tail(conversation_id, limit)`: last `limit` journal lines in file
order; `[]` when the journal does not exist. -/
def tail (log : LogState) (cid : String) (limit : Nat) : List Entry :=
  match logGet log cid with
  | none => []
  | some es => tailSlice limit es

theorem logGet_logAppend_self (log : LogState) (key : String) (e : Entry) :
    logGet (logAppend log key e) key = some ((logGet log key).getD [] ++ [e]) := by
  induction log with
  | nil => simp [logAppend, logGet]
  | cons p rest ih =>
    obtain ⟨k, es⟩ := p
    by_cases h : k = key
    · simp [logAppend, logGet, h]
    · simp [logAppend, logGet, h, ih]

theorem logGet_logAppend_ne (log : LogState) (key key' : String) (e : Entry)
    (h : key' ≠ key) : logGet (logAppend log key e) key' = logGet log key' := by
  induction log with
  | nil => simp [logAppend, logGet, Ne.symm h]
  | cons p rest ih =>
    obtain ⟨k, es⟩ := p
    by_cases h0 : k = key
    · subst h0
      simp [logAppend, logGet, Ne.symm h]
    · simp [logAppend, logGet, h0, ih]

/-! ## `json.dumps` (as called with `sort_keys=True`) -/

/-- Lowercase hex digit. -/
def hexDigit (n : Nat) : Char :=
  if n < 10 then Char.ofNat (48 + n) else Char.ofNat (87 + n % 16)

/-- Four lowercase hex digits, as in a `\uXXXX` escape. -/
def hex4 (n : Nat) : String :=
  String.mk [hexDigit (n / 4096 % 16), hexDigit (n / 256 % 16),
             hexDigit (n / 16 % 16), hexDigit (n % 16)]

/-- `json.dumps` escaping of one character; `ascii` is `ensure_ascii`. -/
def jsonEscChar (ascii : Bool) (c : Char) : String :=
  if c = '"' then "\\\""
  else if c = '\\' then "\\\\"
  else if c = '\n' then "\\n"
  else if c = '\t' then "\\t"
  else if c = '\r' then "\\r"
  else if c = Char.ofNat 8 then "\\b"
  else if c = Char.ofNat 12 then "\\f"
  else if c.toNat < 32 then "\\u" ++ hex4 c.toNat
  else if ascii && c.toNat > 126 then
    if c.toNat ≤ 65535 then "\\u" ++ hex4 c.toNat
    else
      "\\u" ++ hex4 (55296 + (c.toNat - 65536) / 1024) ++
      "\\u" ++ hex4 (56320 + (c.toNat - 65536) % 1024)
  else String.singleton c

/-- A JSON string literal. -/
def jsonStr (ascii : Bool) (s : String) : String :=
  "\"" ++ String.join (s.toList.map (jsonEscChar ascii)) ++ "\""

/-- Stable insertion sort of already-rendered dict items by key, matching
`sort_keys=True` (keys of a Python dict are distinct, so stability is moot). -/
def insertPair (x : String × String) : List (String × String) → List (String × String)
  | [] => [x]
  | y :: ys => if x.1 < y.1 then x :: y :: ys else y :: insertPair x ys

def sortPairs : List (String × String) → List (String × String)
  | [] => []
  | x :: xs => insertPair x (sortPairs xs)

mutual

/-- `json.dumps(v, sort_keys=True)` with `ensure_ascii` = `ascii` and the
default separators. -/
def jsonDump (ascii : Bool) : Value → String
  | .null => "null"
  | .bool true => "true"
  | .bool false => "false"
  | .int n => toString n
  | .str s => jsonStr ascii s
  | .list xs => "[" ++ String.intercalate ", " (jsonDumpList ascii xs) ++ "]"
  | .dict kvs =>
    "\x7b" ++ String.intercalate ", " ((sortPairs (jsonDumpPairs ascii kvs)).map (·.2)) ++ "\x7d"

def jsonDumpList (ascii : Bool) : List Value → List String
  | [] => []
  | v :: vs => jsonDump ascii v :: jsonDumpList ascii vs

def jsonDumpPairs (ascii : Bool) : List (String × Value) → List (String × String)
  | [] => []
  | (k, v) :: kvs =>
    (k, jsonStr ascii k ++ ": " ++ jsonDump ascii v) :: jsonDumpPairs ascii kvs

end

/-! ## SHA-256 (`hashlib.sha256(...).hexdigest()`), over bytes as `Nat` -/

def w32 (n : Nat) : Nat := n % 4294967296

def rotr32 (n x : Nat) : Nat := w32 (x / 2 ^ n + x % 2 ^ n * 2 ^ (32 - n))

def not32 (x : Nat) : Nat := 4294967295 - w32 x

def sha256K : List Nat :=
  [1116352408, 1899447441, 3049323471, 3921009573,
   961987163, 1508970993, 2453635748, 2870763221,
   3624381080, 310598401, 607225278, 1426881987,
   1925078388, 2162078206, 2614888103, 3248222580,
   3835390401, 4022224774, 264347078, 604807628,
   770255983, 1249150122, 1555081692, 1996064986,
   2554220882, 2821834349, 2952996808, 3210313671,
   3336571891, 3584528711, 113926993, 338241895,
   666307205, 773529912, 1294757372, 1396182291,
   1695183700, 1986661051, 2177026350, 2456956037,
   2730485921, 2820302411, 3259730800, 3345764771,
   3516065817, 3600352804, 4094571909, 275423344,
   430227734, 506948616, 659060556, 883997877,
   958139571, 1322822218, 1537002063, 1747873779,
   1955562222, 2024104815, 2227730452, 2361852424,
   2428436474, 2756734187, 3204031479, 3329325298]

def sha256H0 : List Nat :=
  [1779033703, 3144134277, 1013904242, 2773480762,
   1359893119, 2600822924, 528734635, 1541459225]

/-- `k` bytes of `n`, big-endian. -/
def beBytes (k : Nat) (n : Nat) : List Nat :=
  (List.range k).map (fun i => n / 2 ^ (8 * (k - 1 - i)) % 256)

/-- SHA-256 message padding: `0x80`, zeros to 56 mod 64, 8-byte bit length. -/
def sha256Pad (msg : List Nat) : List Nat :=
  msg ++ [128] ++ List.replicate ((119 - msg.length % 64) % 64) 0 ++ beBytes 8 (8 * msg.length)

/-- Big-endian 32-bit words from bytes. -/
def bytesToWords : List Nat → List Nat
  | a :: b :: c :: d :: rest => (a * 16777216 + b * 65536 + c * 256 + d) :: bytesToWords rest
  | _ => []

/-- Split a word list into 16-word blocks. -/
def sha256Blocks : List Nat → List (List Nat)
  | [] => []
  | w :: ws => ((w :: ws).take 16) :: sha256Blocks (ws.drop 15)
termination_by l => l.length
decreasing_by simp [List.length_drop]; omega

def ssig0 (x : Nat) : Nat := rotr32 7 x ^^^ rotr32 18 x ^^^ x / 2 ^ 3

def ssig1 (x : Nat) : Nat := rotr32 17 x ^^^ rotr32 19 x ^^^ x / 2 ^ 10

/-- Extend 16 words to the 64-word message schedule. -/
def sha256Schedule (ws : List Nat) : List Nat :=
  (List.range 48).foldl
    (fun acc _ =>
      let n := acc.length
      acc ++ [w32 (acc.getD (n - 16) 0 + ssig0 (acc.getD (n - 15) 0) +
                   acc.getD (n - 7) 0 + ssig1 (acc.getD (n - 2) 0))])
    ws

/-- One SHA-256 compression round over the state `[a,b,c,d,e,f,g,h]`. -/
def sha256Round (w : List Nat) (st : List Nat) (i : Nat) : List Nat :=
  match st with
  | [a, b, c, d, e, f, g, h] =>
    let s1 := rotr32 6 e ^^^ rotr32 11 e ^^^ rotr32 25 e
    let ch := (e &&& f) ^^^ (not32 e &&& g)
    let t1 := w32 (h + s1 + ch + sha256K.getD i 0 + w.getD i 0)
    let s0 := rotr32 2 a ^^^ rotr32 13 a ^^^ rotr32 22 a
    let mj := (a &&& b) ^^^ (a &&& c) ^^^ (b &&& c)
    let t2 := w32 (s0 + mj)
    [w32 (t1 + t2), a, b, c, w32 (d + t1), e, f, g]
  | _ => st

def sha256Compress (h : List Nat) (block : List Nat) : List Nat :=
  let w := sha256Schedule block
  let fin := (List.range 64).foldl (sha256Round w) h
  (h.zip fin).map (fun p => w32 (p.1 + p.2))

/-- SHA-256 digest (32 bytes) of a byte list. -/
def sha256 (msg : List Nat) : List Nat :=
  ((sha256Blocks (bytesToWords (sha256Pad msg))).foldl sha256Compress sha256H0).foldr
    (fun w acc => beBytes 4 w ++ acc) []

/-- Lowercase hex rendering of a byte list (`hexdigest()`). -/
def bytesToHex (bs : List Nat) : String :=
  String.join (bs.map (fun b => String.mk [hexDigit (b / 16 % 16), hexDigit (b % 16)]))

/-- `hashlib.sha256(s.encode("utf-8")).hexdigest()`. -/
def sha256Hex (s : String) : String :=
  bytesToHex (sha256 (s.toUTF8.toList.map (fun b => b.toNat)))

/-! ## Rolling summarizer (`backend/log/summarize.py`) -/

/-- The dict returned by `rolling_summary`. -/
structure Summary where
  conversation_id : String
  content : String
  summary_ref : String
deriving Repr, DecidableEq

/-- `_stringify_event`: a `str` payload verbatim; a `dict` payload via
`json.dumps(payload, sort_keys=True)` (so `ensure_ascii=True`); otherwise
`str(event["message"])` when `message` is truthy, else `"(no payload)"`. -/
def stringify_event (e : Entry) : Except String String :=
  match dget e "payload" with
  | some (.str s) => .ok s
  | some (.dict kvs) => .ok (jsonDump true (.dict kvs))
  | _ =>
    match dget e "message" with
    | some m => if m.truthy then pyStrE m else .ok "(no payload)"
    | none => .ok "(no payload)"

/-- `event.get("type", "UNKNOWN")` used as a grouping key; the backend only
ever stores string (or missing) types, so other values are unmodelled. -/
def typeKey (e : Entry) : Except String String :=
  match dget e "type" with
  | none => .ok "UNKNOWN"
  | some (.str s) => .ok s
  | some _ => .error "unmodelled: non-string event type"

/-- `defaultdict(list)` grouping: append `v` to the group of `k`, creating
the group at the end on first appearance. -/
def groupInsert (gs : List (String × List String)) (k : String) (v : String) :
    List (String × List String) :=
  match gs with
  | [] => [(k, [v])]
  | (k', vs) :: rest =>
    if k' = k then (k', vs ++ [v]) :: rest else (k', vs) :: groupInsert rest k v

def groupGet (gs : List (String × List String)) (k : String) : List String :=
  match gs with
  | [] => []
  | (k', vs) :: rest => if k' = k then vs else groupGet rest k

/-- `sorted` on strings (keys of the group dict are distinct). -/
def insertStr (x : String) : List String → List String
  | [] => [x]
  | y :: ys => if x < y then x :: y :: ys else y :: insertStr x ys

def sortStrings : List String → List String
  | [] => []
  | x :: xs => insertStr x (sortStrings xs)

/-- `rolling_summary(conversation_id, events)`: group stringified events by
type, render groups in sorted key order, hash the stripped content. -/
def summaryPair (e : Entry) : Except String (String × String) := do
  let k ← typeKey e
  let s ← stringify_event e
  return (k, s)

def rolling_summary (cid : String) (events : List Entry) : Except String Summary :=
  match events.mapM summaryPair with
  | .error e => .error e
  | .ok pairs =>
    let groups := pairs.foldl (fun gs p => groupInsert gs p.1 p.2) []
    let keys := sortStrings (groups.map (·.1))
    let lines := keys.foldl
      (fun acc k => acc ++ ("### " ++ k) :: (groupGet groups k).map (fun item => "- " ++ item)) []
    let content := (String.intercalate "\n" lines).trim
    .ok { conversation_id := cid, content := content, summary_ref := sha256Hex content }

/-- The summaries directory: file stem mapped to full file text. -/
abbrev SumStore := List (String × String)

def sset : SumStore → String → String → SumStore
  | [], key, val => [(key, val)]
  | (k, v) :: rest, key, val =>
    if k = key then (k, val) :: rest else (k, v) :: sset rest key val

/-- `persist_summary`: overwrite `<cid>.md` with the `summary_ref` header
followed by the content. -/
def persist_summary (sums : SumStore) (cid : String) (s : Summary) : SumStore :=
  sset sums cid ("<!-- summary_ref:" ++ s.summary_ref ++ " -->\n" ++ s.content ++ "\n")

/-! ## Agent runtime (`backend/agents/runtime.py`, `backend/agents/base.py`) -/

/-- `AgentTask` dataclass; field values keep their stored `Value` shape. -/
structure AgentTask where
  id : Value
  type : Value
  status : Value
  owner : Value
  priority : Value
  inputs : Value
  context : Value
  metadata : Value
  attempt : Value
deriving Repr, DecidableEq

/-- `AgentResult` dataclass. -/
structure AgentResult where
  task_id : String
  outcome : String
  artifacts : List Value
  notes : Option String
  next_actions : Option (List Value)
deriving Repr, DecidableEq

/-- `AgentError` exception data. -/
structure AgentError where
  task_id : String
  reason : String
  retryable : Bool
  details : List (String × Value)
deriving Repr, DecidableEq

/-- `AgentError.to_payload()`. -/
def AgentError.to_payload (e : AgentError) : Value :=
  .dict [("task_id", .str e.task_id), ("reason", .str e.reason),
         ("retryable", .bool e.retryable), ("details", .dict e.details)]

/-- `v.get(k)` on a value that must be a dict (`AttributeError` otherwise). -/
def vget (v : Value) (k : String) : Except String (Option Value) :=
  match v with
  | .dict kvs => .ok (dget kvs k)
  | _ => .error "AttributeError: get"

/-- `AgentTask.conversation_id()`: `metadata.get(...) or inputs.get(...) or id`. -/
def convId (t : AgentTask) : Except String Value :=
  match vget t.metadata "conversation_id" with
  | .error e => .error e
  | .ok m =>
    if (m.getD .null).truthy then .ok (m.getD .null)
    else
      match vget t.inputs "conversation_id" with
      | .error e => .error e
      | .ok i => if (i.getD .null).truthy then .ok (i.getD .null) else .ok t.id

/-- `_to_agent_task(node)`; `node["id"]` raises when absent. -/
def toAgentTask (n : Node) : Except String AgentTask :=
  match dget n "id" with
  | none => .error "KeyError: id"
  | some idv => .ok {
      id := idv,
      type := (dget n "type").getD (.str "unknown"),
      status := (dget n "status").getD (.str "UNKNOWN"),
      owner := (dget n "owner").getD .null,
      priority := (dget n "priority").getD (.int 0),
      inputs := (dget n "inputs").getD (.dict []),
      context := (dget n "context").getD (.dict []),
      metadata := (dget n "metadata").getD (.dict []),
      attempt := (dget n "attempt").getD (.int 0) }

/-- The read phase of `poll_next_task`: one shared-locked read of the
registry (`list_active({"PENDING"})`) followed by the pure scan for the
first node of the wanted type. -/
def pollSelect (g : Graph) (atype : String) : Option Node :=
  (list_active g ["PENDING"]).find? (fun n => dget n "type" == some (.str atype))

/-- `node.get("attempt", 0) + 1` (Python `bool` is an `int`). -/
def attemptSucc (n : Node) : Except String Value :=
  match dget n "attempt" with
  | none => .ok (.int 1)
  | some (.int k) => .ok (.int (k + 1))
  | some (.bool b) => .ok (.int (cond b 1 0 + 1))
  | some _ => .error "TypeError: attempt + 1"

/-- The write phase of `poll_next_task`: the `update_task` call, an
exclusively-locked read-modify-write of the registry performed with the
stale node `n` read during the read phase. -/
def pollClaim (g : Graph) (aid : String) (n : Node) (now : String) :
    Except String (Graph × Node) :=
  match dget n "id" with
  | none => .error "KeyError: id"
  | some tid =>
    match attemptSucc n with
    | .error e => .error e
    | .ok att =>
      update_task g tid
        [("status", .str "IN_PROGRESS"), ("owner", .str aid), ("attempt", att)] now

/-- `AgentRuntime.poll_next_task` run without interference: the read phase
immediately followed by the write phase on the same registry. -/
def poll_next_task (g : Graph) (aid atype now : String) :
    Except String (Graph × Option AgentTask) :=
  match pollSelect g atype with
  | none => .ok (g, none)
  | some n =>
    match pollClaim g aid n now with
    | .error e => .error e
    | .ok (g', claimed) =>
      match toAgentTask claimed with
      | .error e => .error e
      | .ok t => .ok (g', some t)

/-- The `payload` dict built by `emit_update` before the policy guard:
fixed identity keys, optional `progress`, then `payload.update(extra)`
when `extra` is truthy. -/
def buildUpdatePayload (aid atype : String) (task : AgentTask) (message : String)
    (progress : Option Value) (extra : Option (List (String × Value))) :
    List (String × Value) :=
  let p : List (String × Value) :=
    [("task_id", task.id), ("agent_id", .str aid), ("agent_type", .str atype),
     ("message", .str message)]
  let p := match progress with
    | some pr => dset p "progress" pr
    | none => p
  match extra with
  | some e => if e.isEmpty then p else dsetMany p e
  | none => p

/-- The `payload` dict built by `complete_task` (`result.artifacts or []`
is the list itself, `[]` either way). -/
def buildResultPayload (aid atype : String) (r : AgentResult) :
    List (String × Value) :=
  [("task_id", .str r.task_id), ("agent_id", .str aid), ("agent_type", .str atype),
   ("outcome", .str r.outcome), ("artifacts", .list r.artifacts),
   ("notes", match r.notes with | some s => .str s | none => .null),
   ("next_actions", match r.next_actions with | some l => .list l | none => .null)]

/-- The `payload` dict built by `fail_task`. -/
def buildErrorPayload (aid atype : String) (e : AgentError) :
    List (String × Value) :=
  [("task_id", .str e.task_id), ("agent_id", .str aid), ("agent_type", .str atype),
   ("outcome", .str "failed"), ("error", e.to_payload)]

/-- `_enforce_policy`: raise `PolicyViolation` on a truthy `render_to_user`,
otherwise pop the key (in place) and continue. -/
def enforcePolicy (p : List (String × Value)) : Except String (List (String × Value)) :=
  if ((dget p "render_to_user").getD .null).truthy then
    .error "PolicyViolation"
  else .ok (dpop p "render_to_user")

/-- The draft dict `_append_event` hands to `append_event`. -/
def agentEventDraft (cid : Value) (kind : String) (payload : List (String × Value)) : Entry :=
  [("conversation_id", cid), ("type", .str kind),
   ("payload", .dict payload), ("visibility", .str "internal")]

/-- `AgentRuntime._append_event(task, kind, payload)`. -/
def agentAppend (task : AgentTask) (kind : String) (payload : List (String × Value))
    (log : LogState) (now fid : String) : Except String LogState :=
  match convId task with
  | .error e => .error e
  | .ok cid =>
    match append_event (agentEventDraft cid kind payload) now fid log with
    | .error e => .error e
    | .ok (_, log') => .ok log'

/-- `AgentRuntime.emit_update`: build the payload, run the policy guard
(raising before anything is appended), then append one `AGENT_UPDATE`
event.  The log state is returned unchanged on any raise. -/
def emit_update (aid atype : String) (task : AgentTask) (message : String)
    (progress : Option Value) (extra : Option (List (String × Value)))
    (log : LogState) (now fid : String) : Except String Unit × LogState :=
  match enforcePolicy (buildUpdatePayload aid atype task message progress extra) with
  | .error e => (.error e, log)
  | .ok payload' =>
    match agentAppend task "AGENT_UPDATE" payload' log now fid with
    | .error e => (.error e, log)
    | .ok log' => (.ok (), log')

/-- `AgentRuntime.complete_task`: guard, append one `AGENT_RESULT` event,
then `update_task(task.id, status="COMPLETED", outputs={"result": payload})`. -/
def complete_task (aid atype : String) (task : AgentTask) (r : AgentResult)
    (log : LogState) (g : Graph) (now nowTask fid : String) :
    Except String Node × LogState × Graph :=
  match enforcePolicy (buildResultPayload aid atype r) with
  | .error e => (.error e, log, g)
  | .ok payload' =>
    match agentAppend task "AGENT_RESULT" payload' log now fid with
    | .error e => (.error e, log, g)
    | .ok log' =>
      match update_task g task.id
          [("status", .str "COMPLETED"), ("outputs", .dict [("result", .dict payload')])]
          nowTask with
      | .error e => (.error e, log', g)
      | .ok (g', node) => (.ok node, log', g')

/-- `AgentRuntime.fail_task`: guard, append one `AGENT_RESULT` event, then
`update_task(task.id, status="FAILED", outputs={"error": ...})`. -/
def fail_task (aid atype : String) (task : AgentTask) (err : AgentError)
    (log : LogState) (g : Graph) (now nowTask fid : String) :
    Except String Node × LogState × Graph :=
  match enforcePolicy (buildErrorPayload aid atype err) with
  | .error e => (.error e, log, g)
  | .ok payload' =>
    match agentAppend task "AGENT_RESULT" payload' log now fid with
    | .error e => (.error e, log, g)
    | .ok log' =>
      match update_task g task.id
          [("status", .str "FAILED"), ("outputs", .dict [("error", err.to_payload)])]
          nowTask with
      | .error e => (.error e, log', g)
      | .ok (g', node) => (.ok node, log', g')

/-! ## Controller gate (`backend/orchestrator/controller_runner.py`) -/

def SPEAK_HINTS : List String := ["user_waiting", "task_completed", "agent_failed"]

def TRIGGER_EVENT_TYPES : List String := ["ERROR", "AGENT_RESULT"]

/-- The decision dict returned by `ControllerRunner.decide`. -/
structure Decision where
  speak_now : Bool
  actions : List Value
  notes : String
deriving Repr, DecidableEq

/-- `l[-n:]` for a positive literal `n`. -/
def lastN (n : Nat) (l : List α) : List α := l.drop (l.length - n)

/-- `ControllerRunner.decide(hints, recent_events)`: a hint in the
must-speak set, or else a scan of the last five events (newest first) for a
trigger type. -/
def ControllerRunner.decide (hints : Option (List String)) (recent : List Entry) :
    Decision :=
  let hs := match hints with | none => [] | some l => l
  let speak :=
    if hs.any (fun h => SPEAK_HINTS.contains h) then true
    else (lastN 5 recent).reverse.any (fun e =>
      match dget e "type" with
      | some (.str s) => TRIGGER_EVENT_TYPES.contains s
      | _ => false)
  { speak_now := speak,
    actions := [.dict [("kind", .str "reflect"),
      ("attention_hints", .list (hs.map .str)),
      ("recent_event_types", .list ((lastN 3 recent).map (fun e => (dget e "type").getD .null)))]],
    notes := "Auto-gated via ControllerRunner" }

/-- `_render_payload`: `None` (or a missing key) renders as
`"(no payload)"`, a string verbatim, anything else through
`json.dumps(..., ensure_ascii=False, sort_keys=True)`. -/
def render_payload : Option Value → String
  | none => "(no payload)"
  | some .null => "(no payload)"
  | some (.str s) => s
  | some v => jsonDump false v

/-- `event.get("type", "EVENT")` rendered into the context line. -/
def eventLabel (e : Entry) : Except String String :=
  match dget e "type" with
  | none => .ok "EVENT"
  | some (.str s) => .ok s
  | some _ => .error "unmodelled: non-string event type"

/-- One rendered context line per kept event. -/
def renderLines (events : List Entry) : Except String (List String) :=
  events.mapM (fun e => do
    let l ← eventLabel e
    return "- [" ++ l ++ "] " ++ render_payload (dget e "payload"))

/-- The `SUMMARY_REFRESH` draft appended after a summary refresh. -/
def refreshDraft (cid : String) (ref : String) : Entry :=
  [("conversation_id", .str cid), ("type", .str "SUMMARY_REFRESH"),
   ("payload", .dict [("summary_ref", .str ref)]),
   ("visibility", .str "internal")]

/-- `build_context_slice(conversation_id, events, max_events)`: keep
`events[-max_events:]` verbatim; if `events[:-max_events]` is non-empty,
summarize it, persist the artifact, append one `SUMMARY_REFRESH` event and
attach a pointer section.  Both slices follow Python semantics, so
`max_events = 0` keeps everything and trims nothing. -/
def build_context_slice (cid : String) (events : List Entry) (max_events : Nat)
    (log : LogState) (sums : SumStore) (now fid : String) :
    Except String (String × LogState × SumStore) :=
  match renderLines (if max_events = 0 then events else lastN max_events events) with
  | .error e => .error e
  | .ok lines =>
    if (if max_events = 0 then ([] : List Entry)
        else events.take (events.length - max_events)).isEmpty then
      .ok (String.intercalate "\n" lines, log, sums)
    else
      match rolling_summary cid
          (if max_events = 0 then ([] : List Entry)
           else events.take (events.length - max_events)) with
      | .error e => .error e
      | .ok summary =>
        match append_event (refreshDraft cid summary.summary_ref) now fid log with
        | .error e => .error e
        | .ok (_, log') =>
          .ok (String.intercalate "\n" lines ++
               "\n### Summaries\n- Ref " ++ summary.summary_ref ++
               " (see summaries/" ++ cid ++ ".md)", log',
               persist_summary sums cid summary)

/-! ## Claims -/

theorem trigger_scan_iff (e : Entry) :
    ((match dget e "type" with
      | some (.str s) => TRIGGER_EVENT_TYPES.contains s
      | _ => false) = true) ↔
    (∃ s, dget e "type" = some (Value.str s) ∧ s ∈ TRIGGER_EVENT_TYPES) := by
  cases h : dget e "type" with
  | none => simp [h]
  | some v => cases v <;> simp [h, List.elem_iff]

/-- C5: for every hint list and event list, `decide` returns
`speak_now = true` iff some hint lies in the must-speak set
`{user_waiting, task_completed, agent_failed}` or some of the last five
events has a type in the trigger set `{ERROR, AGENT_RESULT}`; in
particular no hints with recent `[USER_MESSAGE, AGENT_UPDATE]` yields
`false`, the single hint `user_waiting` yields `true`, and recent events
ending in `AGENT_RESULT` with no matching hint yield `true`. -/
theorem decide_speak_now_iff :
    (∀ (hints : Option (List String)) (recent : List Entry),
      ((ControllerRunner.decide hints recent).speak_now = true ↔
        ((∃ h ∈ (match hints with | none => ([] : List String) | some l => l),
            h ∈ SPEAK_HINTS) ∨
         (∃ e ∈ lastN 5 recent, ∃ s, dget e "type" = some (Value.str s) ∧
            s ∈ TRIGGER_EVENT_TYPES)))) ∧
    (ControllerRunner.decide (some [])
      [[("type", Value.str "USER_MESSAGE")], [("type", Value.str "AGENT_UPDATE")]]).speak_now
      = false ∧
    (ControllerRunner.decide (some ["user_waiting"]) []).speak_now = true ∧
    (ControllerRunner.decide none
      [[("type", Value.str "USER_MESSAGE")], [("type", Value.str "AGENT_RESULT")]]).speak_now
      = true := by
  refine ⟨?_, rfl, rfl, rfl⟩
  intro hints recent
  have hform : (ControllerRunner.decide hints recent).speak_now
      = (((match hints with | none => ([] : List String) | some l => l).any
            (fun h => SPEAK_HINTS.contains h)) ||
         ((lastN 5 recent).reverse.any (fun e =>
            match dget e "type" with
            | some (.str s) => TRIGGER_EVENT_TYPES.contains s
            | _ => false))) := by
    show (if _ then true else _) = _
    cases hh : (match hints with | none => ([] : List String) | some l => l).any
        (fun h => SPEAK_HINTS.contains h) <;> simp [hh]
  rw [hform, Bool.or_eq_true, List.any_eq_true, List.any_reverse, List.any_eq_true]
  constructor
  · rintro (⟨h, hm, hc⟩ | ⟨e, he, hc⟩)
    · exact Or.inl ⟨h, hm, List.elem_iff.mp hc⟩
    · exact Or.inr ⟨e, he, (trigger_scan_iff e).mp hc⟩
  · rintro (⟨h, hm, hc⟩ | ⟨e, he, hc⟩)
    · exact Or.inl ⟨h, hm, List.elem_iff.mpr hc⟩
    · exact Or.inr ⟨e, he, (trigger_scan_iff e).mpr hc⟩

/-- C4: `rolling_summary` is a pure function of the conversation id and the
event list: equal event lists (same events, same order) give identical
results, and any produced summary carries `summary_ref` equal to the
SHA-256 content hash of its rendered `content`. -/
theorem rolling_summary_pure (cid : String) (es1 es2 : List Entry)
    (h : es1 = es2) :
    rolling_summary cid es1 = rolling_summary cid es2 ∧
    ∀ s, rolling_summary cid es1 = .ok s →
      s.summary_ref = sha256Hex s.content ∧ s.conversation_id = cid := by
  subst h
  refine ⟨rfl, ?_⟩
  intro s hs
  unfold rolling_summary at hs
  cases hm : es1.mapM summaryPair with
  | error e => rw [hm] at hs; cases hs
  | ok pairs =>
    rw [hm] at hs
    cases hs
    exact ⟨rfl, rfl⟩

/-- Witness for C4 at a concrete two-event list. -/
theorem rolling_summary_pure_witness :
    ([[("type", Value.str "B")], [("type", Value.str "A"), ("message", Value.str "m")]]
        = ([[("type", Value.str "B")], [("type", Value.str "A"), ("message", Value.str "m")]]
        : List Entry)) ∧
    (rolling_summary "conv-1"
        [[("type", Value.str "B")], [("type", Value.str "A"), ("message", Value.str "m")]]
      = rolling_summary "conv-1"
        [[("type", Value.str "B")], [("type", Value.str "A"), ("message", Value.str "m")]] ∧
     ∀ s, rolling_summary "conv-1"
        [[("type", Value.str "B")], [("type", Value.str "A"), ("message", Value.str "m")]]
        = .ok s → s.summary_ref = sha256Hex s.content ∧ s.conversation_id = "conv-1") :=
  ⟨rfl, rolling_summary_pure "conv-1" _ _ rfl⟩

/-- C2: when the payload assembled by `emit_update` carries a truthy
`render_to_user` flag, the call raises `PolicyViolation` and the event log
is unchanged (the guard rejects instead of stripping); the payloads
assembled by `complete_task` and `fail_task` never contain the flag at all,
so their guard can only pass. -/
theorem emit_update_policy_guard
    (aid atype : String) (task : AgentTask) (message : String)
    (progress : Option Value) (extra : Option (List (String × Value)))
    (r : AgentResult) (err : AgentError) (log : LogState) (now fid : String)
    (h : ((dget (buildUpdatePayload aid atype task message progress extra)
            "render_to_user").getD .null).truthy = true) :
    emit_update aid atype task message progress extra log now fid
      = (.error "PolicyViolation", log) ∧
    dget (buildResultPayload aid atype r) "render_to_user" = none ∧
    dget (buildErrorPayload aid atype err) "render_to_user" = none := by
  refine ⟨?_, rfl, rfl⟩
  simp [emit_update, enforcePolicy, h]

/-- Witness for C2: a concrete `extra` smuggling `render_to_user: true`. -/
theorem emit_update_policy_guard_witness :
    ((dget (buildUpdatePayload "coder-guard" "coder"
          (AgentTask.mk (.str "t1") (.str "coder") (.str "IN_PROGRESS") (.str "coder-guard")
            (.int 0) (.dict []) (.dict []) (.dict [("conversation_id", .str "conv-guard")])
            (.int 1))
          "nope" none (some [("render_to_user", .bool true)]))
        "render_to_user").getD .null).truthy = true ∧
    emit_update "coder-guard" "coder"
        (AgentTask.mk (.str "t1") (.str "coder") (.str "IN_PROGRESS") (.str "coder-guard")
          (.int 0) (.dict []) (.dict []) (.dict [("conversation_id", .str "conv-guard")])
          (.int 1))
        "nope" none (some [("render_to_user", .bool true)]) [] "T1" "F1"
      = (.error "PolicyViolation", []) :=
  ⟨by decide, (emit_update_policy_guard "coder-guard" "coder" _ "nope" none _
      (AgentResult.mk "t1" "success" [] none none)
      (AgentError.mk "t1" "r" false []) [] "T1" "F1" (by decide)).1⟩

theorem append_event_ok (draft : Entry) (now fid : String) (log : LogState)
    (idv : Value) (log' : LogState)
    (h : append_event draft now fid log = .ok (idv, log')) :
    ∃ key, log' = logAppend log key (mkEntry draft now fid) := by
  unfold append_event at h
  by_cases ht : ((dget draft "conversation_id").getD .null).truthy = true
  · rw [if_pos ht] at h
    cases hp : pyStrE ((dget draft "conversation_id").getD .null) with
    | error e => rw [hp] at h; cases h
    | ok key => rw [hp] at h; cases h; exact ⟨key, rfl⟩
  · rw [if_neg ht] at h
    cases h

theorem agentDraft_mkEntry_visibility (cid : Value) (kind : String)
    (payload : List (String × Value)) (now fid : String) :
    dget (mkEntry (agentEventDraft cid kind payload) now fid) "visibility"
      = some (.str "internal") := rfl

theorem agentAppend_internal (task : AgentTask) (kind : String)
    (payload : List (String × Value)) (log : LogState) (now fid : String)
    (log' : LogState) (h : agentAppend task kind payload log now fid = .ok log') :
    ∃ key e, log' = logAppend log key e ∧
      dget e "visibility" = some (Value.str "internal") := by
  unfold agentAppend at h
  split at h
  · cases h
  · rename_i cid hcid
    split at h
    · cases h
    · rename_i p idv log2 hp
      cases h
      obtain ⟨key, hk⟩ := append_event_ok _ _ _ _ _ _ hp
      exact ⟨key, _, hk, agentDraft_mkEntry_visibility cid kind payload now fid⟩

/-- C10: every event appended through the runtime operations
(`emit_update`, `complete_task`, `fail_task`) carries
`visibility = "internal"`: whenever one of them changes the log at all, the
change is the append of a single entry whose visibility is `"internal"`,
for every task and payload supplied. -/
theorem agent_events_internal
    (aid atype : String) (task : AgentTask) (message : String)
    (progress : Option Value) (extra : Option (List (String × Value)))
    (r : AgentResult) (err : AgentError) (log : LogState) (g : Graph)
    (now nowTask fid : String) :
    (∀ u log', emit_update aid atype task message progress extra log now fid = (u, log') →
      log' = log ∨ ∃ key e, log' = logAppend log key e ∧
        dget e "visibility" = some (Value.str "internal")) ∧
    (∀ res log' g', complete_task aid atype task r log g now nowTask fid = (res, log', g') →
      log' = log ∨ ∃ key e, log' = logAppend log key e ∧
        dget e "visibility" = some (Value.str "internal")) ∧
    (∀ res log' g', fail_task aid atype task err log g now nowTask fid = (res, log', g') →
      log' = log ∨ ∃ key e, log' = logAppend log key e ∧
        dget e "visibility" = some (Value.str "internal")) := by
  refine ⟨?_, ?_, ?_⟩
  · intro u log' h
    unfold emit_update at h
    split at h
    · cases h; exact Or.inl rfl
    · rename_i payload' hpol
      split at h
      · cases h; exact Or.inl rfl
      · rename_i log2 happ
        cases h
        exact Or.inr (agentAppend_internal _ _ _ _ _ _ _ happ)
  · intro res log' g' h
    unfold complete_task at h
    split at h
    · cases h; exact Or.inl rfl
    · rename_i payload' hpol
      split at h
      · cases h; exact Or.inl rfl
      · rename_i log2 happ
        split at h
        · cases h
          exact Or.inr (agentAppend_internal _ _ _ _ _ _ _ happ)
        · rename_i g2 node hup
          cases h
          exact Or.inr (agentAppend_internal _ _ _ _ _ _ _ happ)
  · intro res log' g' h
    unfold fail_task at h
    split at h
    · cases h; exact Or.inl rfl
    · rename_i payload' hpol
      split at h
      · cases h; exact Or.inl rfl
      · rename_i log2 happ
        split at h
        · cases h
          exact Or.inr (agentAppend_internal _ _ _ _ _ _ _ happ)
        · rename_i g2 node hup
          cases h
          exact Or.inr (agentAppend_internal _ _ _ _ _ _ _ happ)

/-- Witness for C10: a concrete `emit_update` whose appended event is
checked to be internal-only. -/
theorem agent_events_internal_witness :
    (emit_update "a1" "coder"
        (AgentTask.mk (.str "t1") (.str "coder") (.str "IN_PROGRESS") (.str "a1") (.int 0)
          (.dict []) (.dict []) (.dict [("conversation_id", .str "c")]) (.int 1))
        "working" none none [] "T" "F").2 = [] ∨
    ∃ key e, (emit_update "a1" "coder"
        (AgentTask.mk (.str "t1") (.str "coder") (.str "IN_PROGRESS") (.str "a1") (.int 0)
          (.dict []) (.dict []) (.dict [("conversation_id", .str "c")]) (.int 1))
        "working" none none [] "T" "F").2 = logAppend [] key e ∧
      dget e "visibility" = some (Value.str "internal") :=
  (agent_events_internal "a1" "coder"
      (AgentTask.mk (.str "t1") (.str "coder") (.str "IN_PROGRESS") (.str "a1") (.int 0)
        (.dict []) (.dict []) (.dict [("conversation_id", .str "c")]) (.int 1))
      "working" none none (AgentResult.mk "t1" "success" [] none none)
      (AgentError.mk "t1" "r" false []) [] [] "T" "TT" "F").1 _ _ rfl

theorem append_event_str_cid (d : Entry) (cid ts f : String) (L : LogState)
    (hc : dget d "conversation_id" = some (.str cid)) (hne : cid ≠ "") :
    append_event d ts f L
      = .ok ((dget (mkEntry d ts f) "id").getD .null,
             logAppend L cid (mkEntry d ts f)) := by
  unfold append_event
  rw [hc]
  simp [Value.truthy, pyStrE, hne]

theorem mkEntry_timestamp (d : Entry) (ts f : String) :
    dget (mkEntry d ts f) "timestamp" = some (.str ts) :=
  dget_dset_self _ _ _

theorem tailSlice_last_three (B : List Entry) (e1 e2 e3 : Entry) :
    tailSlice 3 (B ++ [e1, e2, e3]) = [e1, e2, e3] := by
  unfold tailSlice
  rw [if_neg (by omega : ¬ (3 = 0))]
  have h : (B ++ [e1, e2, e3]).length - 3 = B.length := by simp
  rw [h, List.drop_left]

theorem tail_three_appends (L : LogState) (cid : String) (e1 e2 e3 : Entry) :
    tail (logAppend (logAppend (logAppend L cid e1) cid e2) cid e3) cid 3
      = [e1, e2, e3] := by
  unfold tail
  rw [logGet_logAppend_self, logGet_logAppend_self, logGet_logAppend_self]
  simp only [Option.getD_some]
  have hr : (logGet L cid).getD [] ++ [e1] ++ [e2] ++ [e3]
      = (logGet L cid).getD [] ++ [e1, e2, e3] := by simp
  rw [hr, tailSlice_last_three]

/-- C7: appending `e1, e2, e3` to one conversation (at non-decreasing wall
clock times) and then calling `tail(conv, 3)` returns exactly those three
finished entries in append order, their `timestamp` fields carrying the
non-decreasing append times; and `tail` returns `[]` for a conversation
with no journal. -/
theorem tail_append_order
    (log : LogState) (cid : String) (d1 d2 d3 : Entry)
    (ts1 ts2 ts3 f1 f2 f3 : String)
    (hcid : cid ≠ "")
    (h1 : dget d1 "conversation_id" = some (.str cid))
    (h2 : dget d2 "conversation_id" = some (.str cid))
    (h3 : dget d3 "conversation_id" = some (.str cid))
    (hts12 : ts1 ≤ ts2) (hts23 : ts2 ≤ ts3) :
    ∃ i1 i2 i3 log1 log2 log3,
      append_event d1 ts1 f1 log = .ok (i1, log1) ∧
      append_event d2 ts2 f2 log1 = .ok (i2, log2) ∧
      append_event d3 ts3 f3 log2 = .ok (i3, log3) ∧
      tail log3 cid 3
        = [mkEntry d1 ts1 f1, mkEntry d2 ts2 f2, mkEntry d3 ts3 f3] ∧
      dget (mkEntry d1 ts1 f1) "timestamp" = some (.str ts1) ∧
      dget (mkEntry d2 ts2 f2) "timestamp" = some (.str ts2) ∧
      dget (mkEntry d3 ts3 f3) "timestamp" = some (.str ts3) ∧
      ts1 ≤ ts2 ∧ ts2 ≤ ts3 ∧
      (∀ c lim, logGet log c = none → tail log c lim = []) := by
  refine ⟨_, _, _, _, _, _,
    append_event_str_cid d1 cid ts1 f1 log h1 hcid,
    append_event_str_cid d2 cid ts2 f2 _ h2 hcid,
    append_event_str_cid d3 cid ts3 f3 _ h3 hcid,
    tail_three_appends log cid _ _ _,
    mkEntry_timestamp d1 ts1 f1, mkEntry_timestamp d2 ts2 f2, mkEntry_timestamp d3 ts3 f3,
    hts12, hts23, ?_⟩
  intro c lim hnone
  unfold tail
  rw [hnone]

/-- Witness for C7 at a concrete conversation and three concrete drafts. -/
theorem tail_append_order_witness :
    ("c" : String) ≠ "" ∧ ("T0" : String) ≤ "T0" ∧ ("T0" : String) ≤ "T0" ∧
    ∃ i1 i2 i3 log1 log2 log3,
      append_event [("conversation_id", Value.str "c"), ("type", Value.str "A")]
        "T0" "f1" [] = .ok (i1, log1) ∧
      append_event [("conversation_id", Value.str "c"), ("type", Value.str "B")]
        "T0" "f2" log1 = .ok (i2, log2) ∧
      append_event [("conversation_id", Value.str "c"), ("type", Value.str "C")]
        "T0" "f3" log2 = .ok (i3, log3) ∧
      tail log3 "c" 3
        = [mkEntry [("conversation_id", Value.str "c"), ("type", Value.str "A")] "T0" "f1",
           mkEntry [("conversation_id", Value.str "c"), ("type", Value.str "B")] "T0" "f2",
           mkEntry [("conversation_id", Value.str "c"), ("type", Value.str "C")] "T0" "f3"] ∧
      dget (mkEntry [("conversation_id", Value.str "c"), ("type", Value.str "A")] "T0" "f1")
        "timestamp" = some (.str "T0") ∧
      dget (mkEntry [("conversation_id", Value.str "c"), ("type", Value.str "B")] "T0" "f2")
        "timestamp" = some (.str "T0") ∧
      dget (mkEntry [("conversation_id", Value.str "c"), ("type", Value.str "C")] "T0" "f3")
        "timestamp" = some (.str "T0") ∧
      ("T0" : String) ≤ "T0" ∧ ("T0" : String) ≤ "T0" ∧
      (∀ c lim, logGet ([] : LogState) c = none → tail [] c lim = []) :=
  ⟨by decide, le_refl "T0", le_refl "T0",
   tail_append_order [] "c"
     [("conversation_id", Value.str "c"), ("type", Value.str "A")]
     [("conversation_id", Value.str "c"), ("type", Value.str "B")]
     [("conversation_id", Value.str "c"), ("type", Value.str "C")]
     "T0" "T0" "T0" "f1" "f2" "f3" (by decide) rfl rfl rfl (le_refl "T0") (le_refl "T0")⟩

/-- Counterexample to C8 as stated: `create_task` honours a `created_at`
supplied by the draft, so the returned task's `created_at` and `updated_at`
are not equal for every draft. -/
theorem create_task_created_at_counterexample :
    ∃ g' node,
      create_task []
        [("type", Value.str "analysis"), ("status", Value.str "PENDING"),
         ("created_at", Value.str "2020-01-01T00:00:00Z")]
        "2024-05-05T00:00:00Z" "abc" = .ok (g', node) ∧
      dget node "created_at" = some (.str "2020-01-01T00:00:00Z") ∧
      dget node "updated_at" = some (.str "2024-05-05T00:00:00Z") ∧
      dget node "created_at" ≠ dget node "updated_at" :=
  ⟨_, _, rfl, rfl, rfl, by decide⟩

/-- C8 (amended): `create` returns a task whose `id` is the draft's when
present and the freshly generated `task-<uuid>` otherwise, appended to the
registry, with `updated_at` set to the creation time and `created_at` equal
to `updated_at` whenever the draft does not itself supply `created_at`
(the draft's own value is kept when it does). -/
theorem create_task_spec (g : Graph) (draft : Node) (now fid : String)
    (hty : (dget draft "type").isSome) (hst : (dget draft "status").isSome) :
    ∃ node,
      create_task g draft now fid = .ok (g ++ [node], node) ∧
      dget node "id" = some ((dget draft "id").getD (.str ("task-" ++ fid))) ∧
      dget node "created_at" = some ((dget draft "created_at").getD (.str now)) ∧
      dget node "updated_at" = some (.str now) ∧
      (dget draft "created_at" = none →
        dget node "created_at" = dget node "updated_at") := by
  obtain ⟨ty, hty⟩ := Option.isSome_iff_exists.mp hty
  obtain ⟨st, hst⟩ := Option.isSome_iff_exists.mp hst
  unfold create_task
  rw [hty, hst]
  refine ⟨_, rfl, rfl, rfl, rfl, ?_⟩
  intro h
  show some ((dget draft "created_at").getD (.str now)) = _
  rw [h]
  rfl

/-- Witness for the amended C8 at a concrete draft without `created_at`. -/
theorem create_task_spec_witness :
    (dget [("type", Value.str "analysis"), ("status", Value.str "PENDING")] "type").isSome ∧
    (dget [("type", Value.str "analysis"), ("status", Value.str "PENDING")] "status").isSome ∧
    ∃ node,
      create_task [] [("type", Value.str "analysis"), ("status", Value.str "PENDING")]
        "2024-05-05T00:00:00Z" "abc" = .ok ([] ++ [node], node) ∧
      dget node "id" = some ((dget [("type", Value.str "analysis"),
        ("status", Value.str "PENDING")] "id").getD (.str ("task-" ++ "abc"))) ∧
      dget node "created_at" = some ((dget [("type", Value.str "analysis"),
        ("status", Value.str "PENDING")] "created_at").getD (.str "2024-05-05T00:00:00Z")) ∧
      dget node "updated_at" = some (.str "2024-05-05T00:00:00Z") ∧
      (dget [("type", Value.str "analysis"), ("status", Value.str "PENDING")] "created_at"
          = none →
        dget node "created_at" = dget node "updated_at") :=
  ⟨by decide, by decide,
   create_task_spec [] [("type", Value.str "analysis"), ("status", Value.str "PENDING")]
     "2024-05-05T00:00:00Z" "abc" (by decide) (by decide)⟩

/-- Counterexample to C9 as stated: an `update` whose patch contains `id`
rewrites the task's `id` in the registry. -/
theorem update_task_id_counterexample :
    ∃ g' nd,
      update_task [[("id", Value.str "t1"), ("type", Value.str "x"),
                    ("status", Value.str "PENDING")]]
        (Value.str "t1") [("id", Value.str "t2")] "TS" = .ok (g', nd) ∧
      g'.map (fun n => dget n "id") = [some (Value.str "t2")] ∧
      ([[("id", Value.str "t1"), ("type", Value.str "x"),
         ("status", Value.str "PENDING")]] : Graph).map (fun n => dget n "id")
        = [some (Value.str "t1")] :=
  ⟨_, _, rfl, by decide, by decide⟩

/-- C9 (amended): for every patch that does not contain the `id` key,
`update_task` preserves the `id` of every task in the registry (and a
failed update raises without returning a registry at all). -/
theorem update_task_preserves_ids (g : Graph) (tid : Value)
    (patch : List (String × Value)) (now : String)
    (hp : ∀ kv ∈ patch, kv.1 ≠ "id") :
    ∀ g' nd, update_task g tid patch now = .ok (g', nd) →
      g'.map (fun n => dget n "id") = g.map (fun n => dget n "id") := by
  induction g with
  | nil => intro g' nd h; cases h
  | cons n rest ih =>
    intro g' nd h
    unfold update_task at h
    split at h
    · cases h
    · rename_i v hid
      split at h
      · cases h
        simp only [List.map_cons]
        congr 1
        rw [dget_dset_ne _ "updated_at" "id" _ (by decide),
            dget_dsetMany_ne patch n "id" hp]
      · split at h
        · cases h
        · rename_i g2 nd2 hrec
          cases h
          simp only [List.map_cons]
          congr 1
          exact ih _ _ hrec

/-- Witness for the amended C9 at a concrete registry and patch. -/
theorem update_task_preserves_ids_witness :
    (∀ kv ∈ [("status", Value.str "IN_PROGRESS")], kv.1 ≠ "id") ∧
    ∀ g' nd,
      update_task [[("id", Value.str "t1"), ("type", Value.str "x"),
                    ("status", Value.str "PENDING")]]
        (Value.str "t1") [("status", Value.str "IN_PROGRESS")] "TS" = .ok (g', nd) →
      g'.map (fun n => dget n "id")
        = ([[("id", Value.str "t1"), ("type", Value.str "x"),
             ("status", Value.str "PENDING")]] : Graph).map (fun n => dget n "id") :=
  ⟨by decide,
   update_task_preserves_ids [[("id", Value.str "t1"), ("type", Value.str "x"),
      ("status", Value.str "PENDING")]] (Value.str "t1")
     [("status", Value.str "IN_PROGRESS")] "TS" (by decide)⟩

/-- Lexicographic order on character lists: the order Python uses to
compare (ASCII) strings such as ISO-8601 timestamps. -/
def strLtChars : List Char → List Char → Bool
  | [], [] => false
  | [], _ :: _ => true
  | _ :: _, [] => false
  | a :: as, b :: bs => if a < b then true else if b < a then false else strLtChars as bs

theorem strLtChars_lex (as bs : List Char) (h : strLtChars as bs = true) :
    List.Lex (· < ·) as bs := by
  induction as generalizing bs with
  | nil =>
    cases bs with
    | nil => simp [strLtChars] at h
    | cons b bs => exact List.Lex.nil
  | cons a as ih =>
    cases bs with
    | nil => simp [strLtChars] at h
    | cons b bs =>
      unfold strLtChars at h
      by_cases hab : a < b
      · exact List.Lex.rel hab
      · rw [if_neg hab] at h
        by_cases hba : b < a
        · rw [if_pos hba] at h; cases h
        · rw [if_neg hba] at h
          have heq : a = b := le_antisymm (not_lt.mp hba) (not_lt.mp hab)
          subst heq
          exact List.Lex.cons (ih bs h)

theorem pyStrLt_lt (a b : String) (h : strLtChars a.data b.data = true) : a < b := by
  rw [String.lt_iff_toList_lt]
  exact strLtChars_lex _ _ h

theorem find?_decomp (l : List Node) (p : Node → Bool) (a : Node)
    (h : l.find? p = some a) :
    ∃ pre post, l = pre ++ a :: post ∧ ∀ x ∈ pre, p x = false := by
  induction l with
  | nil => cases h
  | cons x xs ih =>
    cases hp : p x with
    | true =>
      rw [List.find?_cons_of_pos _ hp] at h
      cases h
      exact ⟨[], xs, rfl, by intro y hy; cases hy⟩
    | false =>
      rw [List.find?_cons_of_neg _ (by simp [hp])] at h
      obtain ⟨pre, post, hl, hpre⟩ := ih h
      refine ⟨x :: pre, post, by rw [hl]; rfl, ?_⟩
      intro y hy
      rcases List.mem_cons.mp hy with hyx | hym
      · rw [hyx]; exact hp
      · exact hpre y hym

theorem find?_filter_eq (l : List Node) (p q : Node → Bool) :
    (l.filter p).find? q = l.find? (fun x => p x && q x) := by
  induction l with
  | nil => rfl
  | cons x xs ih =>
    cases hp : p x with
    | true =>
      cases hq : q x with
      | true =>
        rw [List.filter_cons_of_pos (by simp [hp]), List.find?_cons_of_pos _ hq,
            List.find?_cons_of_pos _ (by simp [hp, hq])]
      | false =>
        rw [List.filter_cons_of_pos (by simp [hp]), List.find?_cons_of_neg _ (by simp [hq]),
            List.find?_cons_of_neg _ (by simp [hp, hq]), ih]
    | false =>
      rw [List.filter_cons_of_neg (by simp [hp]),
          List.find?_cons_of_neg _ (by simp [hp]), ih]

/-- The eligibility test of the claim path: status is `PENDING` and the
node's type equals the polling agent's type. -/
def claimEligible (atype : String) (n : Node) : Bool :=
  (match dget n "status" with
    | some (.str s) => (["PENDING"] : List String).contains s
    | _ => false) && (dget n "type" == some (.str atype))

theorem pollSelect_eq_find (g : Graph) (atype : String) :
    pollSelect g atype = g.find? (claimEligible atype) := by
  unfold pollSelect list_active claimEligible
  rw [if_neg (by simp)]
  exact find?_filter_eq g _ _

theorem update_task_at_first (tid : Value) (patch : List (String × Value))
    (now : String) (pre post : Graph) (n : Node)
    (hn : dget n "id" = some tid)
    (hpre : ∀ m ∈ pre, ∃ v, dget m "id" = some v ∧ v ≠ tid) :
    update_task (pre ++ n :: post) tid patch now
      = .ok (pre ++ dset (dsetMany n patch) "updated_at" (.str now) :: post,
             dset (dsetMany n patch) "updated_at" (.str now)) := by
  induction pre with
  | nil =>
    simp only [List.nil_append]
    unfold update_task
    rw [hn]
    simp
  | cons m pre ih =>
    obtain ⟨v, hv, hvne⟩ := hpre m (List.mem_cons_self m pre)
    have ih' := ih (fun m' hm' => hpre m' (List.mem_cons_of_mem m hm'))
    simp only [List.cons_append]
    unfold update_task
    rw [hv]
    simp only [List.cons_append] at ih'
    simp [hvne, ih']

/-- C3 (amended): `poll_next_task` selects the first task in storage
(registry) order with status `PENDING` and type equal to the polling
agent's type — not the earliest-created with ties broken by id — and
atomically (in the sequential run) rewrites exactly that node to
`IN_PROGRESS` with `owner` the claiming agent id and `attempt` incremented
by 1, returning the claimed task; with no eligible task it returns `none`
and the registry unchanged. -/
theorem poll_next_task_spec (g : Graph) (aid atype now : String)
    (hids : ∀ m ∈ g, (dget m "id").isSome)
    (hnodup : (g.map (fun m => dget m "id")).Nodup) :
    pollSelect g atype = g.find? (claimEligible atype) ∧
    (pollSelect g atype = none → poll_next_task g aid atype now = .ok (g, none)) ∧
    (∀ n k, pollSelect g atype = some n → dget n "attempt" = some (.int k) →
      ∃ pre post nd t,
        g = pre ++ n :: post ∧
        (∀ m ∈ pre, claimEligible atype m = false) ∧
        claimEligible atype n = true ∧
        nd = dset (dsetMany n
          [("status", Value.str "IN_PROGRESS"), ("owner", Value.str aid),
           ("attempt", Value.int (k + 1))]) "updated_at" (.str now) ∧
        poll_next_task g aid atype now = .ok (pre ++ nd :: post, some t) ∧
        toAgentTask nd = .ok t ∧
        dget nd "status" = some (.str "IN_PROGRESS") ∧
        dget nd "owner" = some (.str aid) ∧
        dget nd "attempt" = some (.int (k + 1)) ∧
        dget nd "id" = dget n "id" ∧
        t.status = .str "IN_PROGRESS" ∧ t.owner = .str aid ∧
        t.attempt = .int (k + 1) ∧ some t.id = dget n "id") := by
  refine ⟨pollSelect_eq_find g atype, ?_, ?_⟩
  · intro hnone
    unfold poll_next_task
    rw [hnone]
  · intro n k hsel hatt
    have hfind : g.find? (claimEligible atype) = some n := by
      rw [← pollSelect_eq_find]; exact hsel
    have hmem : n ∈ g := List.mem_of_find?_eq_some hfind
    have hel : claimEligible atype n = true := List.find?_some hfind
    obtain ⟨pre, post, hg, hpre⟩ := find?_decomp g _ n hfind
    obtain ⟨tid, htid⟩ := Option.isSome_iff_exists.mp (hids n hmem)
    have hprene : ∀ m ∈ pre, ∃ v, dget m "id" = some v ∧ v ≠ tid := by
      intro m hm
      obtain ⟨v, hv⟩ := Option.isSome_iff_exists.mp
        (hids m (by rw [hg]; exact List.mem_append_left _ hm))
      refine ⟨v, hv, ?_⟩
      intro hveq
      rw [hveq] at hv
      have hnd := hnodup
      rw [hg, List.map_append, List.map_cons] at hnd
      have hdisj := (List.nodup_append.mp hnd).2.2
      have hmemmap : (some tid) ∈ pre.map (fun m => dget m "id") := by
        rw [← hv]; exact List.mem_map_of_mem _ hm
      have hnotin := hdisj hmemmap
      rw [htid] at hnotin
      exact hnotin (List.mem_cons_self _ _)
    have hatts : attemptSucc n = .ok (.int (k + 1)) := by
      unfold attemptSucc; rw [hatt]
    have hexp : dsetMany n
        [("status", Value.str "IN_PROGRESS"), ("owner", Value.str aid),
         ("attempt", Value.int (k + 1))]
        = dset (dset (dset n "status" (Value.str "IN_PROGRESS"))
            "owner" (Value.str aid)) "attempt" (Value.int (k + 1)) := rfl
    have hupdate := update_task_at_first tid
      [("status", Value.str "IN_PROGRESS"), ("owner", Value.str aid),
       ("attempt", Value.int (k + 1))] now pre post n htid hprene
    have hclaim : pollClaim g aid n now
        = .ok (pre ++ dset (dsetMany n
            [("status", Value.str "IN_PROGRESS"), ("owner", Value.str aid),
             ("attempt", Value.int (k + 1))]) "updated_at" (.str now) :: post,
           dset (dsetMany n
            [("status", Value.str "IN_PROGRESS"), ("owner", Value.str aid),
             ("attempt", Value.int (k + 1))]) "updated_at" (.str now)) := by
      unfold pollClaim
      simp only [htid, hatts]
      rw [hg]
      exact hupdate
    have hstat : dget (dset (dsetMany n
        [("status", Value.str "IN_PROGRESS"), ("owner", Value.str aid),
         ("attempt", Value.int (k + 1))]) "updated_at" (.str now)) "status"
        = some (.str "IN_PROGRESS") := by
      rw [dget_dset_ne _ "updated_at" "status" _ (by decide), hexp,
          dget_dset_ne _ "attempt" "status" _ (by decide),
          dget_dset_ne _ "owner" "status" _ (by decide), dget_dset_self]
    have howner : dget (dset (dsetMany n
        [("status", Value.str "IN_PROGRESS"), ("owner", Value.str aid),
         ("attempt", Value.int (k + 1))]) "updated_at" (.str now)) "owner"
        = some (.str aid) := by
      rw [dget_dset_ne _ "updated_at" "owner" _ (by decide), hexp,
          dget_dset_ne _ "attempt" "owner" _ (by decide), dget_dset_self]
    have hattempt : dget (dset (dsetMany n
        [("status", Value.str "IN_PROGRESS"), ("owner", Value.str aid),
         ("attempt", Value.int (k + 1))]) "updated_at" (.str now)) "attempt"
        = some (.int (k + 1)) := by
      rw [dget_dset_ne _ "updated_at" "attempt" _ (by decide), hexp, dget_dset_self]
    have hidnd : dget (dset (dsetMany n
        [("status", Value.str "IN_PROGRESS"), ("owner", Value.str aid),
         ("attempt", Value.int (k + 1))]) "updated_at" (.str now)) "id"
        = dget n "id" := by
      rw [dget_dset_ne _ "updated_at" "id" _ (by decide), hexp,
          dget_dset_ne _ "attempt" "id" _ (by decide),
          dget_dset_ne _ "owner" "id" _ (by decide),
          dget_dset_ne _ "status" "id" _ (by decide)]
    have htask : toAgentTask (dset (dsetMany n
        [("status", Value.str "IN_PROGRESS"), ("owner", Value.str aid),
         ("attempt", Value.int (k + 1))]) "updated_at" (.str now))
        = .ok (AgentTask.mk tid
            ((dget (dset (dsetMany n
              [("status", Value.str "IN_PROGRESS"), ("owner", Value.str aid),
               ("attempt", Value.int (k + 1))]) "updated_at" (.str now)) "type").getD
              (.str "unknown"))
            (.str "IN_PROGRESS") (.str aid)
            ((dget (dset (dsetMany n
              [("status", Value.str "IN_PROGRESS"), ("owner", Value.str aid),
               ("attempt", Value.int (k + 1))]) "updated_at" (.str now)) "priority").getD
              (.int 0))
            ((dget (dset (dsetMany n
              [("status", Value.str "IN_PROGRESS"), ("owner", Value.str aid),
               ("attempt", Value.int (k + 1))]) "updated_at" (.str now)) "inputs").getD
              (.dict []))
            ((dget (dset (dsetMany n
              [("status", Value.str "IN_PROGRESS"), ("owner", Value.str aid),
               ("attempt", Value.int (k + 1))]) "updated_at" (.str now)) "context").getD
              (.dict []))
            ((dget (dset (dsetMany n
              [("status", Value.str "IN_PROGRESS"), ("owner", Value.str aid),
               ("attempt", Value.int (k + 1))]) "updated_at" (.str now)) "metadata").getD
              (.dict []))
            (.int (k + 1))) := by
      unfold toAgentTask
      simp only [hidnd.trans htid, hstat, howner, hattempt, Option.getD_some]
    have hpoll : poll_next_task g aid atype now
        = .ok (pre ++ dset (dsetMany n
            [("status", Value.str "IN_PROGRESS"), ("owner", Value.str aid),
             ("attempt", Value.int (k + 1))]) "updated_at" (.str now) :: post,
           some (AgentTask.mk tid
            ((dget (dset (dsetMany n
              [("status", Value.str "IN_PROGRESS"), ("owner", Value.str aid),
               ("attempt", Value.int (k + 1))]) "updated_at" (.str now)) "type").getD
              (.str "unknown"))
            (.str "IN_PROGRESS") (.str aid)
            ((dget (dset (dsetMany n
              [("status", Value.str "IN_PROGRESS"), ("owner", Value.str aid),
               ("attempt", Value.int (k + 1))]) "updated_at" (.str now)) "priority").getD
              (.int 0))
            ((dget (dset (dsetMany n
              [("status", Value.str "IN_PROGRESS"), ("owner", Value.str aid),
               ("attempt", Value.int (k + 1))]) "updated_at" (.str now)) "inputs").getD
              (.dict []))
            ((dget (dset (dsetMany n
              [("status", Value.str "IN_PROGRESS"), ("owner", Value.str aid),
               ("attempt", Value.int (k + 1))]) "updated_at" (.str now)) "context").getD
              (.dict []))
            ((dget (dset (dsetMany n
              [("status", Value.str "IN_PROGRESS"), ("owner", Value.str aid),
               ("attempt", Value.int (k + 1))]) "updated_at" (.str now)) "metadata").getD
              (.dict []))
            (.int (k + 1)))) := by
      unfold poll_next_task
      simp only [hsel, hclaim, htask]
    exact ⟨pre, post, _, _, hg, hpre, hel, rfl, hpoll, htask, hstat, howner,
      hattempt, hidnd, rfl, rfl, rfl, htid.symm⟩

/-- Witness for the amended C3 on a one-task registry. -/
theorem poll_next_task_spec_witness :
    (∀ m ∈ ([[("id", Value.str "t1"), ("type", Value.str "coder"),
        ("status", Value.str "PENDING"), ("attempt", Value.int 0)]] : Graph),
      (dget m "id").isSome) ∧
    (([[("id", Value.str "t1"), ("type", Value.str "coder"),
        ("status", Value.str "PENDING"), ("attempt", Value.int 0)]] : Graph).map
      (fun m => dget m "id")).Nodup ∧
    ∃ pre post nd t,
      poll_next_task [[("id", Value.str "t1"), ("type", Value.str "coder"),
          ("status", Value.str "PENDING"), ("attempt", Value.int 0)]]
        "w1" "coder" "TS" = .ok (pre ++ nd :: post, some t) ∧
      dget nd "status" = some (Value.str "IN_PROGRESS") ∧
      dget nd "owner" = some (Value.str "w1") ∧
      dget nd "attempt" = some (Value.int 1) ∧
      t.owner = Value.str "w1" := by
  refine ⟨by decide, by decide, ?_⟩
  obtain ⟨pre, post, nd, t, _, _, _, _, hpoll, _, hstat, howner, hattempt, _, _, hto, _, _⟩ :=
    (poll_next_task_spec [[("id", Value.str "t1"), ("type", Value.str "coder"),
        ("status", Value.str "PENDING"), ("attempt", Value.int 0)]]
      "w1" "coder" "TS" (by decide) (by decide)).2.2
      [("id", Value.str "t1"), ("type", Value.str "coder"),
       ("status", Value.str "PENDING"), ("attempt", Value.int 0)] 0 rfl rfl
  exact ⟨pre, post, nd, t, hpoll, hstat, howner, hattempt, hto⟩

/-- Counterexample to C3 as stated: two PENDING "coder" tasks created with
explicit `created_at` values such that the second task in storage order is
the strictly earlier-created one (and also the smaller id);
`poll_next_task` claims the first in storage order, i.e. the later-created
task. -/
theorem poll_next_task_policy_counterexample :
    ∃ g1 nA g2 nB g' t,
      create_task [] [("id", Value.str "task-late"), ("type", Value.str "coder"),
        ("status", Value.str "PENDING"),
        ("created_at", Value.str "2024-01-02T00:00:00Z")] "2024-01-03T00:00:00Z" "fA"
        = .ok (g1, nA) ∧
      create_task g1 [("id", Value.str "task-early"), ("type", Value.str "coder"),
        ("status", Value.str "PENDING"),
        ("created_at", Value.str "2024-01-01T00:00:00Z")] "2024-01-03T00:00:01Z" "fB"
        = .ok (g2, nB) ∧
      poll_next_task g2 "w1" "coder" "2024-01-04T00:00:00Z" = .ok (g', some t) ∧
      t.id = Value.str "task-late" ∧
      dget nB "id" = some (Value.str "task-early") ∧
      dget nB "status" = some (Value.str "PENDING") ∧
      dget nB "type" = some (Value.str "coder") ∧
      dget nB "created_at" = some (Value.str "2024-01-01T00:00:00Z") ∧
      dget nA "created_at" = some (Value.str "2024-01-02T00:00:00Z") ∧
      ("2024-01-01T00:00:00Z" : String) < "2024-01-02T00:00:00Z" ∧
      ("task-early" : String) < "task-late" ∧
      t.id ≠ Value.str "task-early" :=
  ⟨_, _, _, _, _, _, rfl, rfl, rfl, rfl, rfl, rfl, rfl, rfl, rfl,
   pyStrLt_lt _ _ (by decide), pyStrLt_lt _ _ (by decide), by decide⟩

/-- C1: `poll_next_task` is two separately-locked phases — a read of the
registry (`list_active`) and a later read-modify-write (`update_task`)
that neither re-checks the status nor is fenced against other claimants.
In the interleaving read-A, read-B, write-A, write-B over a registry with
one PENDING "coder" task, both claimants' read phases return the same
node, both write phases succeed (`update_task` matches on `id` only), and
both claims return the task `t1` — two distinct claimants obtain the same
task, violating the at-most-one-claim property. -/
theorem poll_race_both_claim_same_task :
    ∃ gA nA gB nB tA tB,
      pollSelect [[("id", Value.str "t1"), ("type", Value.str "coder"),
          ("status", Value.str "PENDING"), ("attempt", Value.int 0)]] "coder"
        = some [("id", Value.str "t1"), ("type", Value.str "coder"),
                ("status", Value.str "PENDING"), ("attempt", Value.int 0)] ∧
      pollClaim [[("id", Value.str "t1"), ("type", Value.str "coder"),
          ("status", Value.str "PENDING"), ("attempt", Value.int 0)]]
        "agent-A" [("id", Value.str "t1"), ("type", Value.str "coder"),
          ("status", Value.str "PENDING"), ("attempt", Value.int 0)] "TA"
        = .ok (gA, nA) ∧
      pollClaim gA "agent-B" [("id", Value.str "t1"), ("type", Value.str "coder"),
          ("status", Value.str "PENDING"), ("attempt", Value.int 0)] "TB"
        = .ok (gB, nB) ∧
      toAgentTask nA = .ok tA ∧
      toAgentTask nB = .ok tB ∧
      tA.id = Value.str "t1" ∧
      tB.id = Value.str "t1" ∧
      tA.owner = Value.str "agent-A" ∧
      tB.owner = Value.str "agent-B" ∧
      ("agent-A" : String) ≠ "agent-B" ∧
      dget nB "status" = some (Value.str "IN_PROGRESS") ∧
      dget nB "owner" = some (Value.str "agent-B") :=
  ⟨_, _, _, _, _, _, rfl, rfl, rfl, rfl, rfl, rfl, rfl, rfl, rfl,
   by decide, rfl, rfl⟩

/-- Events fully renderable and summarizable in the model: `type` absent
or a string; a fallback `message`, when it would be used and is truthy,
is a scalar. -/
def renderOk (e : Entry) : Bool :=
  (match dget e "type" with
   | none => true
   | some (.str _) => true
   | some _ => false) &&
  (match dget e "payload" with
   | some (.str _) => true
   | some (.dict _) => true
   | _ =>
     match dget e "message" with
     | some m =>
       if m.truthy then
         (match m with
          | .list _ => false
          | .dict _ => false
          | _ => true)
       else true
     | none => true)

theorem typeKey_ok (e : Entry) (h : renderOk e = true) : ∃ k, typeKey e = .ok k := by
  unfold renderOk at h
  rw [Bool.and_eq_true] at h
  cases ht : dget e "type" with
  | none => exact ⟨"UNKNOWN", by simp [typeKey, ht]⟩
  | some v =>
    rw [ht] at h
    cases v with
    | str s => exact ⟨s, by simp [typeKey, ht]⟩
    | null => exact Bool.noConfusion h.1
    | bool b => exact Bool.noConfusion h.1
    | int n => exact Bool.noConfusion h.1
    | list xs => exact Bool.noConfusion h.1
    | dict kvs => exact Bool.noConfusion h.1

theorem eventLabel_ok (e : Entry) (h : renderOk e = true) :
    ∃ lab, eventLabel e = .ok lab := by
  unfold renderOk at h
  rw [Bool.and_eq_true] at h
  cases ht : dget e "type" with
  | none => exact ⟨"EVENT", by simp [eventLabel, ht]⟩
  | some v =>
    rw [ht] at h
    cases v with
    | str s => exact ⟨s, by simp [eventLabel, ht]⟩
    | null => exact Bool.noConfusion h.1
    | bool b => exact Bool.noConfusion h.1
    | int n => exact Bool.noConfusion h.1
    | list xs => exact Bool.noConfusion h.1
    | dict kvs => exact Bool.noConfusion h.1

theorem stringify_msg_ok (m : Value)
    (h2 : (if m.truthy = true then
        (match m with
         | Value.list _ => false
         | Value.dict _ => false
         | _ => true)
      else true) = true) :
    ∃ s, (if m.truthy = true then pyStrE m else Except.ok "(no payload)")
      = Except.ok s := by
  by_cases hmt : m.truthy = true
  · rw [if_pos hmt] at h2 ⊢
    cases m with
    | str s => exact ⟨s, rfl⟩
    | int n => exact ⟨toString n, rfl⟩
    | bool b => cases b with
      | true => exact ⟨"True", rfl⟩
      | false => exact ⟨"False", rfl⟩
    | null => exact ⟨"None", rfl⟩
    | list xs => exact Bool.noConfusion h2
    | dict kvs => exact Bool.noConfusion h2
  · rw [if_neg hmt]
    exact ⟨"(no payload)", rfl⟩

theorem stringify_ok (e : Entry) (h : renderOk e = true) :
    ∃ s, stringify_event e = .ok s := by
  unfold renderOk at h
  rw [Bool.and_eq_true] at h
  have h2 := h.2
  unfold stringify_event
  cases hp : dget e "payload" with
  | some v =>
    rw [hp] at h2
    cases v with
    | str s => exact ⟨s, rfl⟩
    | dict kvs => exact ⟨jsonDump true (.dict kvs), rfl⟩
    | null =>
      cases hm : dget e "message" with
      | none => exact ⟨"(no payload)", rfl⟩
      | some m =>
        rw [hm] at h2
        exact stringify_msg_ok m h2
    | bool b =>
      cases hm : dget e "message" with
      | none => exact ⟨"(no payload)", rfl⟩
      | some m =>
        rw [hm] at h2
        exact stringify_msg_ok m h2
    | int n =>
      cases hm : dget e "message" with
      | none => exact ⟨"(no payload)", rfl⟩
      | some m =>
        rw [hm] at h2
        exact stringify_msg_ok m h2
    | list xs =>
      cases hm : dget e "message" with
      | none => exact ⟨"(no payload)", rfl⟩
      | some m =>
        rw [hm] at h2
        exact stringify_msg_ok m h2
  | none =>
    rw [hp] at h2
    cases hm : dget e "message" with
    | none => exact ⟨"(no payload)", rfl⟩
    | some m =>
      rw [hm] at h2
      exact stringify_msg_ok m h2

theorem summaryPair_ok (e : Entry) (h : renderOk e = true) :
    ∃ p, summaryPair e = .ok p := by
  obtain ⟨k, hk⟩ := typeKey_ok e h
  obtain ⟨s, hs⟩ := stringify_ok e h
  refine ⟨(k, s), ?_⟩
  unfold summaryPair
  rw [hk, hs]
  rfl

theorem mapM_summaryPair_ok (es : List Entry)
    (h : ∀ e ∈ es, renderOk e = true) :
    ∃ ps, es.mapM summaryPair = .ok ps := by
  induction es with
  | nil => exact ⟨[], rfl⟩
  | cons e es ih =>
    obtain ⟨p, hp⟩ := summaryPair_ok e (h e (List.mem_cons_self e es))
    obtain ⟨ps, hps⟩ := ih (fun x hx => h x (List.mem_cons_of_mem e hx))
    refine ⟨p :: ps, ?_⟩
    rw [List.mapM_cons, hp, hps]
    rfl

theorem rolling_summary_ok (cid : String) (es : List Entry)
    (h : ∀ e ∈ es, renderOk e = true) :
    ∃ s, rolling_summary cid es = .ok s := by
  obtain ⟨ps, hps⟩ := mapM_summaryPair_ok es h
  unfold rolling_summary
  rw [hps]
  exact ⟨_, rfl⟩

theorem renderLines_ok (es : List Entry)
    (h : ∀ e ∈ es, renderOk e = true) :
    ∃ ls, renderLines es = .ok ls ∧
      List.Forall₂ (fun e l => ∃ lab, eventLabel e = .ok lab ∧
        l = "- [" ++ lab ++ "] " ++ render_payload (dget e "payload")) es ls := by
  induction es with
  | nil => exact ⟨[], rfl, List.Forall₂.nil⟩
  | cons e es ih =>
    obtain ⟨lab, hlab⟩ := eventLabel_ok e (h e (List.mem_cons_self e es))
    obtain ⟨ls, hls, hfa⟩ := ih (fun x hx => h x (List.mem_cons_of_mem e hx))
    refine ⟨("- [" ++ lab ++ "] " ++ render_payload (dget e "payload")) :: ls,
      ?_, List.Forall₂.cons ⟨lab, hlab, rfl⟩ hfa⟩
    unfold renderLines at hls ⊢
    rw [List.mapM_cons, hlab, hls]
    rfl

theorem build_context_slice_fits (cid : String) (events : List Entry)
    (maxE : Nat) (log : LogState) (sums : SumStore) (now fid : String)
    (ls : List String) (h0 : ¬ maxE = 0)
    (hls : renderLines (lastN maxE events) = .ok ls)
    (hemp : (events.take (events.length - maxE)).isEmpty = true) :
    build_context_slice cid events maxE log sums now fid
      = .ok (String.intercalate "\n" ls, log, sums) := by
  unfold build_context_slice
  rw [if_neg h0, if_neg h0]
  split
  · rename_i e he
    rw [hls] at he
    cases he
  · rename_i lines hlines
    rw [hls] at hlines
    cases hlines
    rw [if_pos hemp]

theorem build_context_slice_overflow (cid : String) (events : List Entry)
    (maxE : Nat) (log : LogState) (sums : SumStore) (now fid : String)
    (ls : List String) (s : Summary) (idv : Value) (log' : LogState)
    (h0 : ¬ maxE = 0)
    (hls : renderLines (lastN maxE events) = .ok ls)
    (hne : ¬ ((events.take (events.length - maxE)).isEmpty = true))
    (hs : rolling_summary cid (events.take (events.length - maxE)) = .ok s)
    (happ : append_event (refreshDraft cid s.summary_ref) now fid log
      = .ok (idv, log')) :
    build_context_slice cid events maxE log sums now fid
      = .ok (String.intercalate "\n" ls ++
          "\n### Summaries\n- Ref " ++ s.summary_ref ++
          " (see summaries/" ++ cid ++ ".md)",
        log', persist_summary sums cid s) := by
  unfold build_context_slice
  rw [if_neg h0, if_neg h0]
  split
  · rename_i e he
    rw [hls] at he
    cases he
  · rename_i lines hlines
    rw [hls] at hlines
    cases hlines
    rw [if_neg hne]
    split
    · rename_i e he
      rw [hs] at he
      cases he
    · rename_i summary hsum
      rw [hs] at hsum
      cases hsum
      split
      · rename_i e he
        rw [happ] at he
        cases he
      · rename_i p pidv plog hp
        rw [happ] at hp
        cases hp
        rfl

theorem rolling_summary_ref_hash (cid : String) (es : List Entry) (s : Summary)
    (h : rolling_summary cid es = .ok s) : s.summary_ref = sha256Hex s.content := by
  unfold rolling_summary at h
  cases hm : es.mapM summaryPair with
  | error e => rw [hm] at h; cases h
  | ok pairs => rw [hm] at h; cases h; rfl

/-- C6 (amended, for `max_events ≥ 1`): with at most `max_events` events,
`build_context_slice` renders every event verbatim (one line per event),
persists nothing and appends nothing; with more events it renders exactly
the last `max_events` verbatim, produces exactly one summary artifact
covering exactly the overflow segment, appends exactly one
`SUMMARY_REFRESH` event recording the new `summary_ref` (the content
hash), and appends the summary pointer at the end of the returned text.
For `max_events = 0` the claim fails on the code (Python `events[:-0]` is
empty), hence the restriction. -/
theorem build_context_slice_spec (cid : String) (events : List Entry)
    (maxE : Nat) (log : LogState) (sums : SumStore) (now fid : String)
    (hpos : 1 ≤ maxE) (hcid : cid ≠ "")
    (hok : ∀ e ∈ events, renderOk e = true) :
    (events.length ≤ maxE →
      ∃ ls, renderLines events = .ok ls ∧
        List.Forall₂ (fun e l => ∃ lab, eventLabel e = .ok lab ∧
          l = "- [" ++ lab ++ "] " ++ render_payload (dget e "payload")) events ls ∧
        build_context_slice cid events maxE log sums now fid
          = .ok (String.intercalate "\n" ls, log, sums)) ∧
    (maxE < events.length →
      ∃ ls s,
        renderLines (events.drop (events.length - maxE)) = .ok ls ∧
        List.Forall₂ (fun e l => ∃ lab, eventLabel e = .ok lab ∧
          l = "- [" ++ lab ++ "] " ++ render_payload (dget e "payload"))
          (events.drop (events.length - maxE)) ls ∧
        (events.drop (events.length - maxE)).length = maxE ∧
        rolling_summary cid (events.take (events.length - maxE)) = .ok s ∧
        events.take (events.length - maxE) ++ events.drop (events.length - maxE)
          = events ∧
        (events.take (events.length - maxE)).length = events.length - maxE ∧
        build_context_slice cid events maxE log sums now fid
          = .ok (String.intercalate "\n" ls ++
              "\n### Summaries\n- Ref " ++ s.summary_ref ++
              " (see summaries/" ++ cid ++ ".md)",
            logAppend log cid (mkEntry (refreshDraft cid s.summary_ref) now fid),
            persist_summary sums cid s) ∧
        dget (mkEntry (refreshDraft cid s.summary_ref) now fid) "type"
          = some (.str "SUMMARY_REFRESH") ∧
        dget (mkEntry (refreshDraft cid s.summary_ref) now fid) "payload"
          = some (.dict [("summary_ref", .str s.summary_ref)]) ∧
        s.summary_ref = sha256Hex s.content) := by
  have h0 : ¬ maxE = 0 := by omega
  constructor
  · intro hle
    have hsub : events.length - maxE = 0 := Nat.sub_eq_zero_of_le hle
    obtain ⟨ls, hls, hfa⟩ := renderLines_ok events hok
    have hkept : lastN maxE events = events := by
      unfold lastN
      rw [hsub]
      exact List.drop_zero events
    have hemp : (events.take (events.length - maxE)).isEmpty = true := by
      rw [hsub, List.take_zero]
      rfl
    refine ⟨ls, hls, hfa, ?_⟩
    exact build_context_slice_fits cid events maxE log sums now fid ls h0
      (by rw [hkept]; exact hls) hemp
  · intro hlt
    have hokk : ∀ e ∈ events.drop (events.length - maxE), renderOk e = true :=
      fun e he => hok e (List.mem_of_mem_drop he)
    have hokt : ∀ e ∈ events.take (events.length - maxE), renderOk e = true :=
      fun e he => hok e (List.mem_of_mem_take he)
    obtain ⟨ls, hls, hfa⟩ := renderLines_ok _ hokk
    obtain ⟨s, hs⟩ := rolling_summary_ok cid _ hokt
    have htakelen : (events.take (events.length - maxE)).length
        = events.length - maxE := by
      rw [List.length_take]
      omega
    have hne : ¬ ((events.take (events.length - maxE)).isEmpty = true) := by
      intro hemp
      rw [List.isEmpty_iff.mp hemp] at htakelen
      simp at htakelen
      omega
    have happ := append_event_str_cid (refreshDraft cid s.summary_ref) cid now fid
      log rfl hcid
    refine ⟨ls, s, hls, hfa, ?_, hs, List.take_append_drop _ events, htakelen,
      ?_, rfl, rfl, rolling_summary_ref_hash cid _ s hs⟩
    · rw [List.length_drop]
      omega
    · exact build_context_slice_overflow cid events maxE log sums now fid ls s
        _ _ h0 hls hne hs happ

/-- Witness for the amended C6: three events, `max_events = 2`. -/
theorem build_context_slice_spec_witness :
    (1 ≤ 2) ∧ (("c" : String) ≠ "") ∧
    ∃ ls s,
      rolling_summary "c" (([[("type", Value.str "A")], [("type", Value.str "B")],
          [("type", Value.str "C")]] : List Entry).take
        (([[("type", Value.str "A")], [("type", Value.str "B")],
          [("type", Value.str "C")]] : List Entry).length - 2)) = .ok s ∧
      build_context_slice "c" [[("type", Value.str "A")], [("type", Value.str "B")],
          [("type", Value.str "C")]] 2 [] [] "T" "F"
        = .ok (String.intercalate "\n" ls ++
            "\n### Summaries\n- Ref " ++ s.summary_ref ++
            " (see summaries/" ++ "c" ++ ".md)",
          logAppend [] "c" (mkEntry (refreshDraft "c" s.summary_ref) "T" "F"),
          persist_summary [] "c" s) := by
  refine ⟨by omega, by decide, ?_⟩
  obtain ⟨ls, s, hls, hfa, hlen, hs, happend, htl, heq, hty, hpl, href⟩ :=
    (build_context_slice_spec "c" [[("type", Value.str "A")], [("type", Value.str "B")],
        [("type", Value.str "C")]] 2 [] [] "T" "F"
      (by omega) (by decide) (by decide)).2 (by decide)
  exact ⟨ls, s, hs, heq⟩

/-- Counterexample to C6 as stated: with `max_events = 0` the single-event
list is longer than `max_events`, yet the code renders the whole list
verbatim, produces no summary artifact and appends no `SUMMARY_REFRESH`
event, because Python's `events[:-0]` slice is empty. -/
theorem build_context_slice_zero_counterexample :
    build_context_slice "c" [[("type", Value.str "A")]] 0 [] [] "T" "F"
      = .ok ("- [A] (no payload)", [], []) ∧
    (0 : Nat) < ([[("type", Value.str "A")]] : List Entry).length :=
  ⟨rfl, by decide⟩
